import Mathlib

/-!
Verification development for the llm-tournament-widget repository.

Scores, weights and latencies are embedded as exact rationals (`ℚ`); the
`Record<string, T>` maps of the TypeScript API types are embedded as
association lists `List (String × T)` with first-match lookup.  Frontend
functions are translated from `src/frontend/src/shared/utils/evaluation.ts`,
`src/frontend/src/shared/types/api.ts` and
`src/frontend/src/components/EvaluationTable.tsx`.  The backend evaluation
orchestrator and aggregator (`/api/app/core`) are not part of the source
tree; where a claim depends on them they are modelled from the
specification, and each such definition says so in its doc comment.
-/

namespace LLMTournament

/-- Embeds JavaScript `Math.abs` on the rational embedding of JS numbers. -/
def ratAbs (q : ℚ) : ℚ := if q < 0 then -q else q

/-- First-match lookup in an association list, embedding `record[key]`
(`undefined` becomes `none`). -/
def lookupStr {α : Type} (m : List (String × α)) (k : String) : Option α :=
  (m.find? (fun p => decide (p.1 = k))).map (fun p => p.2)

/-- Embeds `ScoreType` from `src/frontend/src/shared/types/api.ts`. -/
inductive ScoreType where
  | continuous
  | binary
  | likert
deriving DecidableEq

/-- Embeds `EvaluationCriterion` from `src/frontend/src/shared/types/api.ts`. -/
structure EvaluationCriterion where
  name : String
  description : String
  weight : ℚ
  score_type : ScoreType
deriving DecidableEq

/-- Embeds `GenerationResult` from `src/frontend/src/shared/types/api.ts`. -/
structure GenerationResult where
  generation_id : String
  output : String
  generation_time : ℚ
deriving DecidableEq

/-- Embeds `EvaluationResult` (one judge call) from
`src/frontend/src/shared/types/api.ts`. -/
structure EvaluationResult where
  evaluation_id : String
  scores : List (String × ℚ)
  reasoning : List (String × String)
  evaluation_time : ℚ
deriving DecidableEq

/-- Embeds `GenerationEvaluationResult` from
`src/frontend/src/shared/types/api.ts`. -/
structure GenerationEvaluationResult where
  generation_result : GenerationResult
  evaluation_results : List EvaluationResult
  aggregated_scores : List (String × ℚ)
  aggregated_reasoning : List (String × List String)
deriving DecidableEq

/-- Embeds `PromptResult` from `src/frontend/src/shared/types/api.ts`.
Only `score_std_devs` is optional in the TypeScript interface; every other
field is required, which the embedding reflects by giving only this field
an `Option` type. -/
structure PromptResult where
  prompt_id : String
  prompt : String
  generation_evaluation_results : List GenerationEvaluationResult
  final_scores : List (String × ℚ)
  score_std_devs : Option (List (String × ℚ))
  total_score : ℚ
  execution_time : ℚ
  generation_count : ℕ
  evaluation_count : ℕ
deriving DecidableEq

/-- Embeds `EvaluationResponse` from `src/frontend/src/shared/types/api.ts`. -/
structure EvaluationResponse where
  evaluation_id : String
  timestamp : String
  results : List PromptResult
  criteria : List EvaluationCriterion
  status : String
deriving DecidableEq

/-- Embeds `PromptEvaluationRequest` from
`src/frontend/src/shared/types/api.ts`. -/
structure PromptEvaluationRequest where
  prompts : List String
  test_input : String
  expected_output : Option String
  criteria : List EvaluationCriterion
  generation_count : ℕ
  evaluation_count : ℕ
deriving DecidableEq

/-- Embeds `validateCriteriaWeights` from
`src/frontend/src/shared/utils/evaluation.ts` (lines 6–9):
`const totalWeight = criteria.reduce((sum, c) => sum + c.weight, 0);`
`return Math.abs(totalWeight - 1.0) < 0.001;`. -/
def validateCriteriaWeights (criteria : List EvaluationCriterion) : Bool :=
  let totalWeight := criteria.foldl (fun sum c => sum + c.weight) 0
  decide (ratAbs (totalWeight - 1) < 1/1000)

/-- Embeds `getBestPromptIds` from
`src/frontend/src/shared/utils/evaluation.ts` (lines 14–21): for an empty
list it returns `[]`; otherwise it takes `Math.max` over the
`total_score`s and keeps, in input order, the `prompt_id`s of results
whose `total_score` is within the `0.001` tolerance of that maximum. -/
def getBestPromptIds (results : List PromptResult) : List String :=
  match results with
  | [] => []
  | r :: rs =>
    let maxScore := rs.foldl (fun m s => max m s.total_score) r.total_score
    ((r :: rs).filter
        (fun s => decide (ratAbs (s.total_score - maxScore) < 1/1000))).map
      PromptResult.prompt_id

/-- Embeds `validateFormContent` from
`src/frontend/src/shared/utils/evaluation.ts` (lines 72–80). -/
def validateFormContent (prompts : List String)
    (criteria : List EvaluationCriterion) (testInput : String) : Bool :=
  decide (testInput.trim ≠ "") &&
  prompts.all (fun p => decide (p.trim ≠ "")) &&
  criteria.all (fun c => decide (c.name.trim ≠ "") && decide (c.description.trim ≠ ""))

/-- Embeds `isFormValid` from `src/frontend/src/shared/utils/evaluation.ts`
(lines 85–92): content validity conjoined with the weight check. -/
def isFormValid (prompts : List String) (criteria : List EvaluationCriterion)
    (testInput : String) : Bool :=
  validateFormContent prompts criteria testInput &&
  validateCriteriaWeights criteria

/-- Embeds the score lookup of `getPanelData` in
`src/frontend/src/components/EvaluationTable.tsx` (line 191):
`evalResult.scores[criterionName] || 0`.  On the rational embedding of JS
numbers the falsy value `0` maps to `0` itself, so `x || 0` is the
identity on present values and `0` on a missing key. -/
def panelScore (scores : List (String × ℚ)) (criterionName : String) : ℚ :=
  (lookupStr scores criterionName).getD 0

/-- Embeds the reasoning lookup of `getPanelData` in
`src/frontend/src/components/EvaluationTable.tsx` (line 192):
`evalResult.reasoning[criterionName] || 'No reasoning available'`.  The JS
`||` falls through to the fallback both when the key is missing
(`undefined`) and when the stored string is the falsy `""`. -/
def panelReasoning (reasoning : List (String × String))
    (criterionName : String) : String :=
  match lookupStr reasoning criterionName with
  | none => "No reasoning available"
  | some s => if s = "" then "No reasoning available" else s

/-- Embeds `handleEvaluate` from
`src/frontend/src/components/EvaluationTable.tsx` (lines 131–160): when
`isFormValid` is false the handler returns without calling `onEvaluate`
(embedded as `none`); otherwise it builds the request handed to
`onEvaluate`, filtering blank prompts and mapping an empty
`expectedOutput` to `undefined` (JS `expectedOutput || undefined`). -/
def handleEvaluate (prompts : List String)
    (criteria : List EvaluationCriterion) (testInput expectedOutput : String)
    (generationCount evaluationCount : ℕ) : Option PromptEvaluationRequest :=
  if isFormValid prompts criteria testInput then
    some
      { prompts := prompts.filter (fun p => decide (p.trim ≠ ""))
        test_input := testInput
        expected_output := if expectedOutput = "" then none else some expectedOutput
        criteria := criteria
        generation_count := generationCount
        evaluation_count := evaluationCount }
  else
    none

/-- Modelled from the spec: the backend orchestrator (`/api/app/core`, not
in `src/`) fans out `generation_count` generate calls per prompt and
`evaluation_count` judge calls per generation (§5).  The count of external
capability calls issued for a submission: `0` when the handler rejected
the form, otherwise generate plus judge calls. -/
def capabilityCallCount (req : Option PromptEvaluationRequest) : ℕ :=
  match req with
  | none => 0
  | some r =>
      r.prompts.length * r.generation_count
        + r.prompts.length * r.generation_count * r.evaluation_count

/-- Builds the minimal `PromptResult` fixture used by the concrete test
vectors (an id together with a `total_score`; the remaining fields mirror
the unit-test fixtures of `evaluation.test.ts`). -/
def mkPromptResult (id : String) (score : ℚ) : PromptResult :=
  { prompt_id := id
    prompt := ""
    generation_evaluation_results := []
    final_scores := []
    score_std_devs := none
    total_score := score
    execution_time := 1
    generation_count := 3
    evaluation_count := 3 }

/-- Modelled from the spec: the mean used by the Aggregator (§4.3);
`/api/app/core` is not in the source tree. -/
def listMean (xs : List ℚ) : ℚ :=
  if xs.length = 0 then 0 else xs.sum / xs.length

/-- Modelled from the spec: the sample dispersion statistic of
`aggregatePromptResults` (§4.3, divide by N−1); the backend
`/api/app/core` is not in the source tree.  The spec's sample standard
deviation is the square root of this quantity; the model carries the
sample variance because √ leaves ℚ, and no claim depends on the stored
value, only on when it is present. -/
def sampleVariance (xs : List ℚ) : ℚ :=
  if xs.length ≤ 1 then 0
  else
    let m := xs.sum / xs.length
    ((xs.map (fun x => (x - m) ^ 2)).sum) / ((xs.length : ℚ) - 1)

/-- Modelled from the spec: `aggregateJudgeResults` of the Aggregator
(§4.3), absent from `src/`: per criterion the mean of the judges' scores
and the order-preserved list of their reasoning strings; a missing key is
treated as score `0` with reasoning `"No reasoning available"`, while an
empty string stored under the key is kept as present. -/
def aggregateJudgeResults (results : List EvaluationResult)
    (criteria : List EvaluationCriterion) :
    List (String × ℚ) × List (String × List String) :=
  (criteria.map (fun c =>
      (c.name,
       listMean (results.map (fun r => (lookupStr r.scores c.name).getD 0)))),
   criteria.map (fun c =>
      (c.name,
       results.map (fun r =>
         (lookupStr r.reasoning c.name).getD "No reasoning available"))))

/-- Modelled from the spec: the weighted total of `aggregatePromptResults`
(§4.3), absent from `src/`: `totalScore = Σ finalScores[c] * weight[c]`,
weights never renormalized. -/
def totalScore (finalScores : List (String × ℚ))
    (criteria : List EvaluationCriterion) : ℚ :=
  (criteria.map (fun c => (lookupStr finalScores c.name).getD 0 * c.weight)).sum

/-- Modelled from the spec: `aggregatePromptResults` (§4.3), absent from
`src/`: per-criterion mean of the generations' aggregated scores, the
dispersion statistic computed only when there is more than one generation,
and the weighted total. -/
def aggregatePromptResults (gens : List GenerationEvaluationResult)
    (criteria : List EvaluationCriterion) :
    List (String × ℚ) × Option (List (String × ℚ)) × ℚ :=
  let finalScores := criteria.map (fun c =>
    (c.name,
     listMean (gens.map (fun g => (lookupStr g.aggregated_scores c.name).getD 0))))
  let stdDevs :=
    if 1 < gens.length then
      some (criteria.map (fun c =>
        (c.name,
         sampleVariance
           (gens.map (fun g => (lookupStr g.aggregated_scores c.name).getD 0)))))
    else none
  (finalScores, stdDevs, totalScore finalScores criteria)

/-- Modelled from the spec: the deterministic stub `generate` and `judge`
capabilities of §4.1 used by the round-trip property (§8.6); the launch
index selects which stub of the fixed set serves the call, so concurrent
calls with identical inputs may still be served by distinct stubs. -/
structure CapabilityStubs where
  generate : String → ℕ → String × ℚ
  judge : String → String → ℕ → List (String × ℚ) × List (String × String) × ℚ

/-- Modelled from the spec (§5, §9): the fan-out writes each concurrent
task's result into a pre-allocated slot indexed by launch position;
`order` is the completion order of the task indices and each completing
task writes only its own slot. -/
def fillSlots {α : Type} (f : ℕ → α) (order : List ℕ)
    (slots : List (Option α)) : List (Option α) :=
  order.foldl (fun acc i => acc.set i (some (f i))) slots

/-- Modelled from the spec (§5, §9): launch `n` concurrent tasks, let them
complete in the order `order`, and read the slot array only after the
join/barrier over all of them. -/
def runTasks {α : Type} (n : ℕ) (f : ℕ → α) (order : List ℕ) (d : α) :
    List α :=
  (fillSlots f order (List.replicate n none)).map (fun s => s.getD d)

/-- Modelled from the spec (§5): the completion orders of the three
fan-out levels — prompts, generations within a prompt, judge calls within
a generation. -/
structure Schedule where
  promptOrder : List ℕ
  genOrder : ℕ → List ℕ
  judgeOrder : ℕ → ℕ → List ℕ

/-- A schedule is valid when each completion order is a permutation of the
launched task indices: every launched task eventually completes, exactly
once. -/
def Schedule.Valid (s : Schedule)
    (numPrompts genCount evalCount : ℕ) : Prop :=
  s.promptOrder.Perm (List.range numPrompts)
  ∧ (∀ pi, (s.genOrder pi).Perm (List.range genCount))
  ∧ (∀ pi gi, (s.judgeOrder pi gi).Perm (List.range evalCount))

/-- Completion orders that coincide with launch order at every level. -/
def canonicalSchedule (numPrompts genCount evalCount : ℕ) : Schedule :=
  { promptOrder := List.range numPrompts
    genOrder := fun _ => List.range genCount
    judgeOrder := fun _ _ => List.range evalCount }

/-- Placeholder content of a result slot before its task completes. -/
def defaultGenerationEvaluationResult : GenerationEvaluationResult :=
  { generation_result := { generation_id := "", output := "", generation_time := 0 }
    evaluation_results := []
    aggregated_scores := []
    aggregated_reasoning := [] }

/-- Modelled from the spec: one generation's work in the Orchestrator
(§4.2 steps 2–4), absent from `src/`: call `generate`, fan out
`evalCount` concurrent judge calls over its output (completing in
`judgeOrder`), and reduce them with the Aggregator. -/
def runGeneration (stubs : CapabilityStubs) (testInput : String)
    (criteria : List EvaluationCriterion) (promptText : String)
    (evalCount : ℕ) (judgeOrder : List ℕ) (gi : ℕ) :
    GenerationEvaluationResult :=
  let gen := stubs.generate promptText gi
  let evals := runTasks evalCount
    (fun ei =>
      let j := stubs.judge testInput gen.1 ei
      { evaluation_id := toString ei
        scores := j.1
        reasoning := j.2.1
        evaluation_time := j.2.2 })
    judgeOrder
    { evaluation_id := "", scores := [], reasoning := [], evaluation_time := 0 }
  let agg := aggregateJudgeResults evals criteria
  { generation_result :=
      { generation_id := toString gi, output := gen.1, generation_time := gen.2 }
    evaluation_results := evals
    aggregated_scores := agg.1
    aggregated_reasoning := agg.2 }

/-- Modelled from the spec: cumulative `execution_time` (§4.2 step 6), the
sum of all generation and judge latencies belonging to one prompt. -/
def executionTime (gens : List GenerationEvaluationResult) : ℚ :=
  (gens.map (fun g =>
    g.generation_result.generation_time
      + (g.evaluation_results.map EvaluationResult.evaluation_time).sum)).sum

/-- Modelled from the spec: one prompt's work in the Orchestrator (§4.2),
absent from `src/`: fan out `genCount` concurrent generations (completing
in `genOrder`), reduce with the Aggregator, and assemble the
`PromptResult`. -/
def runPrompt (stubs : CapabilityStubs) (testInput : String)
    (criteria : List EvaluationCriterion) (genCount evalCount : ℕ)
    (genOrder : List ℕ) (judgeOrder : ℕ → List ℕ)
    (pid promptText : String) : PromptResult :=
  let gens := runTasks genCount
    (fun gi =>
      runGeneration stubs testInput criteria promptText evalCount (judgeOrder gi) gi)
    genOrder defaultGenerationEvaluationResult
  let agg := aggregatePromptResults gens criteria
  { prompt_id := pid
    prompt := promptText
    generation_evaluation_results := gens
    final_scores := agg.1
    score_std_devs := agg.2.1
    total_score := agg.2.2
    execution_time := executionTime gens
    generation_count := genCount
    evaluation_count := evalCount }

/-- Modelled from the spec: the Orchestrator's public `evaluate` (§4.2),
absent from `src/`, with the completion orders of the concurrent fan-out
made explicit (§5): prompts are evaluated concurrently, each writing its
slot in the pre-allocated result array, and the response is assembled
after all prompts settle, preserving input prompt order; prompt ids are
generated per prompt at request time, not content-derived. -/
def evaluate (stubs : CapabilityStubs) (prompts : List String)
    (testInput : String) (criteria : List EvaluationCriterion)
    (genCount evalCount : ℕ) (sched : Schedule) : EvaluationResponse :=
  let results := runTasks prompts.length
    (fun pi =>
      runPrompt stubs testInput criteria genCount evalCount
        (sched.genOrder pi) (sched.judgeOrder pi)
        (String.append "prompt-" (toString (pi + 1))) (prompts.getD pi ""))
    sched.promptOrder (mkPromptResult "" 0)
  { evaluation_id := "evaluation-1"
    timestamp := ""
    results := results
    criteria := criteria
    status := "completed" }

/-- Concrete stub capabilities used by the witness instances. -/
def witnessStubs : CapabilityStubs :=
  { generate := fun p i => (String.append p (toString i), 1)
    judge := fun _ _ i =>
      ([("accuracy", 9/10), ("clarity", (i : ℚ)/10)],
       [("accuracy", "ok"), ("clarity", "plain")], 1) }

/-- Concrete criteria used by the witness instances. -/
def witnessCriteria : List EvaluationCriterion :=
  [{ name := "accuracy", description := "How accurate is the response?",
     weight := 7/10, score_type := ScoreType.continuous },
   { name := "clarity", description := "How clear is the response?",
     weight := 3/10, score_type := ScoreType.continuous }]

/-- A scrambled but valid completion schedule for two prompts, two
generations and two judge calls. -/
def witnessSchedule : Schedule :=
  { promptOrder := [1, 0]
    genOrder := fun _ => [1, 0]
    judgeOrder := fun _ _ => [0, 1] }

/-- A second valid completion schedule, in launch order. -/
def witnessScheduleLaunch : Schedule :=
  { promptOrder := [0, 1]
    genOrder := fun _ => [0, 1]
    judgeOrder := fun _ _ => [1, 0] }

/-- The single criterion of the C6 counterexample: its weight `1.0005`
keeps the weight sum within the `±0.001` tolerance of `1.0`. -/
def overweightCriterion : EvaluationCriterion :=
  { name := "accuracy", description := "d", weight := 2001/2000,
    score_type := ScoreType.continuous }

theorem ratAbs_eq_abs (q : ℚ) : ratAbs q = |q| := by
  unfold ratAbs
  rcases lt_or_ge q 0 with h | h
  · rw [if_pos h, abs_of_neg h]
  · rw [if_neg (not_lt.mpr h), abs_of_nonneg h]

theorem weight_foldl_eq_sum (criteria : List EvaluationCriterion) :
    criteria.foldl (fun sum c => sum + c.weight) 0
      = (criteria.map EvaluationCriterion.weight).sum := by
  rw [List.sum_eq_foldl, List.foldl_map]

theorem foldl_max_spec (l : List ℚ) (a : ℚ) :
    (l.foldl max a = a ∨ l.foldl max a ∈ l)
  ∧ a ≤ l.foldl max a
  ∧ ∀ x ∈ l, x ≤ l.foldl max a := by
  induction l generalizing a with
  | nil => exact ⟨Or.inl rfl, le_refl a, by intro x hx; cases hx⟩
  | cons b t ih =>
    obtain ⟨hmem, hle, hall⟩ := ih (max a b)
    refine ⟨?_, ?_, ?_⟩
    · rcases hmem with h | h
      · rcases max_choice a b with hab | hab
        · exact Or.inl (by rw [List.foldl_cons, h, hab])
        · exact Or.inr (by rw [List.foldl_cons, h, hab]; exact List.mem_cons_self b t)
      · exact Or.inr (List.mem_cons_of_mem b h)
    · exact le_trans (le_max_left a b) hle
    · intro x hx
      rcases List.mem_cons.mp hx with rfl | hx
      · exact le_trans (le_max_right a x) hle
      · exact hall x hx

theorem foldl_max_const {l : List ℚ} {c : ℚ} (h : ∀ x ∈ l, x = c) :
    l.foldl max c = c := by
  induction l with
  | nil => rfl
  | cons b t ih =>
    rw [List.foldl_cons, h b (List.mem_cons_self b t), max_self]
    exact ih (fun x hx => h x (List.mem_cons_of_mem b hx))

theorem fillSlots_length {α : Type} (f : ℕ → α) (order : List ℕ)
    (slots : List (Option α)) :
    (fillSlots f order slots).length = slots.length := by
  induction order generalizing slots with
  | nil => rfl
  | cons i rest ih =>
    rw [fillSlots, List.foldl_cons, ← fillSlots, ih, List.length_set]

theorem fillSlots_getElem? {α : Type} (f : ℕ → α) (order : List ℕ)
    (slots : List (Option α)) (j : ℕ) (hj : j < slots.length) :
    (fillSlots f order slots)[j]?
      = if j ∈ order then some (some (f j)) else slots[j]? := by
  induction order generalizing slots with
  | nil => simp [fillSlots]
  | cons i rest ih =>
    rw [fillSlots, List.foldl_cons, ← fillSlots]
    rw [ih (slots.set i (some (f i))) ((List.length_set slots i _).symm ▸ hj)]
    by_cases hrest : j ∈ rest
    · rw [if_pos hrest, if_pos (List.mem_cons_of_mem i hrest)]
    · rw [if_neg hrest, List.getElem?_set]
      by_cases hij : i = j
      · subst hij
        rw [if_pos rfl, if_pos hj, if_pos (List.mem_cons_self i rest)]
      · rw [if_neg hij]
        have : ¬ j ∈ i :: rest := by
          intro hmem
          rcases List.mem_cons.mp hmem with h | h
          · exact hij h.symm
          · exact hrest h
        rw [if_neg this]

theorem runTasks_of_perm {α : Type} (n : ℕ) (f : ℕ → α) (order : List ℕ)
    (d : α) (h : order.Perm (List.range n)) :
    runTasks n f order d = (List.range n).map f := by
  apply List.ext_getElem?
  intro j
  rw [runTasks, List.getElem?_map]
  by_cases hj : j < n
  · have hjlen : j < (List.replicate n (none : Option α)).length := by
      rw [List.length_replicate]; exact hj
    rw [fillSlots_getElem? f order _ j hjlen]
    have hmem : j ∈ order := by
      rw [h.mem_iff, List.mem_range]; exact hj
    rw [if_pos hmem, List.getElem?_map, List.getElem?_range hj]
    rfl
  · have h₁ : (fillSlots f order (List.replicate n (none : Option α))).length ≤ j := by
      rw [fillSlots_length, List.length_replicate]; exact Nat.le_of_not_lt hj
    have h₂ : (List.map f (List.range n)).length ≤ j := by
      rw [List.length_map, List.length_range]; exact Nat.le_of_not_lt hj
    rw [List.getElem?_eq_none h₁, List.getElem?_eq_none h₂]
    rfl

theorem runTasks_length {α : Type} (n : ℕ) (f : ℕ → α) (order : List ℕ)
    (d : α) : (runTasks n f order d).length = n := by
  rw [runTasks, List.length_map, fillSlots_length, List.length_replicate]

theorem map_getD_range {α : Type} (l : List α) (d : α) :
    (List.range l.length).map (fun i => l.getD i d) = l := by
  induction l with
  | nil => rfl
  | cons a t ih =>
    rw [List.length_cons, List.range_succ_eq_map, List.map_cons, List.map_map]
    simp only [Function.comp_def, List.getD_cons_zero, List.getD_cons_succ]
    rw [ih]

theorem runGeneration_of_perm (stubs : CapabilityStubs) (testInput : String)
    (criteria : List EvaluationCriterion) (promptText : String)
    (evalCount : ℕ) (judgeOrder : List ℕ) (gi : ℕ)
    (h : judgeOrder.Perm (List.range evalCount)) :
    runGeneration stubs testInput criteria promptText evalCount judgeOrder gi
      = runGeneration stubs testInput criteria promptText evalCount
          (List.range evalCount) gi := by
  simp only [runGeneration]
  rw [runTasks_of_perm _ _ _ _ h,
      runTasks_of_perm _ _ _ _ (List.Perm.refl (List.range evalCount))]

theorem runPrompt_of_perm (stubs : CapabilityStubs) (testInput : String)
    (criteria : List EvaluationCriterion) (genCount evalCount : ℕ)
    (genOrder : List ℕ) (judgeOrder : ℕ → List ℕ) (pid promptText : String)
    (hg : genOrder.Perm (List.range genCount))
    (hj : ∀ gi, (judgeOrder gi).Perm (List.range evalCount)) :
    runPrompt stubs testInput criteria genCount evalCount genOrder judgeOrder
        pid promptText
      = runPrompt stubs testInput criteria genCount evalCount
          (List.range genCount) (fun _ => List.range evalCount) pid promptText := by
  have hgens :
      runTasks genCount
        (fun gi =>
          runGeneration stubs testInput criteria promptText evalCount
            (judgeOrder gi) gi)
        genOrder defaultGenerationEvaluationResult
      = runTasks genCount
          (fun gi =>
            runGeneration stubs testInput criteria promptText evalCount
              (List.range evalCount) gi)
          (List.range genCount) defaultGenerationEvaluationResult := by
    rw [runTasks_of_perm _ _ _ _ hg,
        runTasks_of_perm _ _ _ _ (List.Perm.refl (List.range genCount))]
    refine List.map_congr_left ?_
    intro gi _
    exact runGeneration_of_perm stubs testInput criteria promptText evalCount
      (judgeOrder gi) gi (hj gi)
  simp only [runPrompt]
  rw [hgens]

theorem evaluate_of_valid (stubs : CapabilityStubs) (prompts : List String)
    (testInput : String) (criteria : List EvaluationCriterion)
    (genCount evalCount : ℕ) (sched : Schedule)
    (h : sched.Valid prompts.length genCount evalCount) :
    evaluate stubs prompts testInput criteria genCount evalCount sched
      = evaluate stubs prompts testInput criteria genCount evalCount
          (canonicalSchedule prompts.length genCount evalCount) := by
  obtain ⟨hp, hg, hj⟩ := h
  have hres :
      runTasks prompts.length
        (fun pi =>
          runPrompt stubs testInput criteria genCount evalCount
            (sched.genOrder pi) (sched.judgeOrder pi)
            (String.append "prompt-" (toString (pi + 1))) (prompts.getD pi ""))
        sched.promptOrder (mkPromptResult "" 0)
      = runTasks prompts.length
          (fun pi =>
            runPrompt stubs testInput criteria genCount evalCount
              ((canonicalSchedule prompts.length genCount evalCount).genOrder pi)
              ((canonicalSchedule prompts.length genCount evalCount).judgeOrder pi)
              (String.append "prompt-" (toString (pi + 1))) (prompts.getD pi ""))
          (canonicalSchedule prompts.length genCount evalCount).promptOrder
          (mkPromptResult "" 0) := by
    simp only [canonicalSchedule]
    rw [runTasks_of_perm _ _ _ _ hp,
        runTasks_of_perm _ _ _ _ (List.Perm.refl (List.range prompts.length))]
    refine List.map_congr_left ?_
    intro pi _
    exact runPrompt_of_perm stubs testInput criteria genCount evalCount
      (sched.genOrder pi) (sched.judgeOrder pi) _ _ (hg pi) (hj pi)
  simp only [evaluate]
  rw [hres]

theorem getBestPromptIds_cons (r : PromptResult) (rs : List PromptResult) :
    getBestPromptIds (r :: rs)
      = ((r :: rs).filter
          (fun s => decide (ratAbs (s.total_score
              - rs.foldl (fun m s => max m s.total_score) r.total_score)
            < 1/1000))).map
          PromptResult.prompt_id := rfl

/-- C1: for the empty list `getBestPromptIds` returns the empty
collection; for every non-empty list it returns exactly the identifiers of
the results whose `total_score` is within the `0.001` tolerance of the
maximum `total_score` (all ties included); on total scores
`[0.85, 0.92, 0.92]` with ids `prompt-1..prompt-3` it returns
`[prompt-2, prompt-3]`; and when all scores are equal it returns every
id. -/
theorem getBestPromptIds_claim :
    getBestPromptIds [] = []
  ∧ (∀ results : List PromptResult, results ≠ [] →
      ∃ M : ℚ, M ∈ results.map PromptResult.total_score
        ∧ (∀ s ∈ results.map PromptResult.total_score, s ≤ M)
        ∧ getBestPromptIds results
            = (results.filter
                (fun r => decide (ratAbs (r.total_score - M) < 1/1000))).map
                PromptResult.prompt_id)
  ∧ getBestPromptIds
      [mkPromptResult "prompt-1" (85/100), mkPromptResult "prompt-2" (92/100),
       mkPromptResult "prompt-3" (92/100)]
      = ["prompt-2", "prompt-3"]
  ∧ (∀ (results : List PromptResult) (c : ℚ),
      (∀ r ∈ results, r.total_score = c) →
      getBestPromptIds results = results.map PromptResult.prompt_id) := by
  refine ⟨rfl, ?_, ?_, ?_⟩
  · intro results hne
    cases results with
    | nil => exact absurd rfl hne
    | cons r rs =>
      refine ⟨rs.foldl (fun m s => max m s.total_score) r.total_score,
        ?_, ?_, ?_⟩
      · rw [show rs.foldl (fun m s => max m s.total_score) r.total_score
              = (rs.map PromptResult.total_score).foldl max r.total_score from
            (List.foldl_map PromptResult.total_score max rs r.total_score).symm]
        obtain ⟨hmem, _, _⟩ :=
          foldl_max_spec (rs.map PromptResult.total_score) r.total_score
        rw [List.map_cons]
        rcases hmem with h | h
        · rw [h]; exact List.mem_cons_self _ _
        · exact List.mem_cons_of_mem _ h
      · rw [show rs.foldl (fun m s => max m s.total_score) r.total_score
              = (rs.map PromptResult.total_score).foldl max r.total_score from
            (List.foldl_map PromptResult.total_score max rs r.total_score).symm]
        obtain ⟨_, hinit, hall⟩ :=
          foldl_max_spec (rs.map PromptResult.total_score) r.total_score
        intro s hs
        rw [List.map_cons] at hs
        rcases List.mem_cons.mp hs with rfl | hs
        · exact hinit
        · exact hall s hs
      · exact getBestPromptIds_cons r rs
  · norm_num [getBestPromptIds, mkPromptResult, ratAbs, max_def, List.filter]
  · intro results c hall
    cases results with
    | nil => rfl
    | cons r rs =>
      have hfold : rs.foldl (fun m s => max m s.total_score) r.total_score = c := by
        rw [hall r (List.mem_cons_self r rs),
            ← List.foldl_map PromptResult.total_score max rs c]
        refine foldl_max_const ?_
        intro x hx
        obtain ⟨a, ha, rfl⟩ := List.mem_map.mp hx
        exact hall a (List.mem_cons_of_mem r ha)
      simp only [getBestPromptIds]
      rw [hfold, List.filter_eq_self.mpr]
      intro a ha
      rw [decide_eq_true_iff, hall a ha, sub_self]
      norm_num [ratAbs]

/-- C1 witness: the theorem evaluated on the spec's concrete vectors — the
empty list, the `[0.85, 0.92, 0.92]` tie, and an all-equal score list. -/
theorem getBestPromptIds_claim_witness :
    getBestPromptIds [] = []
  ∧ getBestPromptIds
      [mkPromptResult "prompt-1" (85/100), mkPromptResult "prompt-2" (92/100),
       mkPromptResult "prompt-3" (92/100)]
      = ["prompt-2", "prompt-3"]
  ∧ getBestPromptIds
      [mkPromptResult "prompt-1" (85/100), mkPromptResult "prompt-2" (85/100),
       mkPromptResult "prompt-3" (85/100)]
      = ["prompt-1", "prompt-2", "prompt-3"] :=
  ⟨getBestPromptIds_claim.1,
   getBestPromptIds_claim.2.2.1,
   getBestPromptIds_claim.2.2.2 _ (85/100) (by
     intro r hr
     simp only [List.mem_cons, List.not_mem_nil, or_false] at hr
     rcases hr with rfl | rfl | rfl <;> rfl)⟩

/-- C9: `getBestPromptIds` preserves input order among the returned ids —
its output is a sublist of the input's `prompt_id` projection, i.e. the
near-maximum results are returned as an ordered list filtered from the
input, never reordered. -/
theorem getBestPromptIds_preserves_input_order (results : List PromptResult) :
    (getBestPromptIds results).Sublist (results.map PromptResult.prompt_id) := by
  cases results with
  | nil => exact List.Sublist.refl []
  | cons r rs =>
    simp only [getBestPromptIds]
    exact ((r :: rs).filter_sublist).map PromptResult.prompt_id

/-- C9 witness: on the `[0.85, 0.92, 0.92]` vector the returned ids form a
sublist of the input id projection. -/
theorem getBestPromptIds_preserves_input_order_witness :
    (getBestPromptIds
      [mkPromptResult "prompt-1" (85/100), mkPromptResult "prompt-2" (92/100),
       mkPromptResult "prompt-3" (92/100)]).Sublist
      (["prompt-1", "prompt-2", "prompt-3"] : List String) :=
  getBestPromptIds_preserves_input_order
    [mkPromptResult "prompt-1" (85/100), mkPromptResult "prompt-2" (92/100),
     mkPromptResult "prompt-3" (92/100)]

/-- C2 counterexample: an empty-string reasoning stored for the requested
criterion is not kept as-is — the JS `||` treats `""` as falsy, so
`getPanelData` replaces it with the fallback text. -/
theorem panelReasoning_empty_string_cex :
    panelReasoning [("accuracy", "")] "accuracy" = "No reasoning available"
  ∧ panelReasoning [("accuracy", "")] "accuracy" ≠ "" := by
  refine ⟨rfl, ?_⟩
  intro h
  exact absurd h (by decide)

/-- C2 amended: a missing score yields `0` and a missing reasoning yields
exactly `"No reasoning available"`; a reasoning that is present but empty
is also replaced by the fallback text (JS `||` treats `""` as falsy),
while a present non-empty reasoning is kept as-is. -/
theorem panelData_fallback_amended :
    (∀ (scores : List (String × ℚ)) (c : String),
        lookupStr scores c = none → panelScore scores c = 0)
  ∧ (∀ (reasoning : List (String × String)) (c : String),
        lookupStr reasoning c = none →
        panelReasoning reasoning c = "No reasoning available")
  ∧ (∀ (reasoning : List (String × String)) (c : String),
        lookupStr reasoning c = some "" →
        panelReasoning reasoning c = "No reasoning available")
  ∧ (∀ (reasoning : List (String × String)) (c : String) (s : String),
        lookupStr reasoning c = some s → s ≠ "" →
        panelReasoning reasoning c = s) := by
  refine ⟨?_, ?_, ?_, ?_⟩
  · intro scores c h
    rw [panelScore, h]; rfl
  · intro reasoning c h
    rw [panelReasoning, h]
  · intro reasoning c h
    rw [panelReasoning, h]; rfl
  · intro reasoning c s h hs
    rw [panelReasoning, h]
    exact if_neg hs

/-- C2 amended witness: the four fallback behaviours evaluated on concrete
maps. -/
theorem panelData_fallback_amended_witness :
    panelScore [("relevance", 1/2)] "accuracy" = 0
  ∧ panelReasoning [("relevance", "on point")] "accuracy" = "No reasoning available"
  ∧ panelReasoning [("clarity", "")] "clarity" = "No reasoning available"
  ∧ panelReasoning [("accuracy", "correct")] "accuracy" = "correct" :=
  ⟨panelData_fallback_amended.1 _ _ rfl,
   panelData_fallback_amended.2.1 _ _ rfl,
   panelData_fallback_amended.2.2.1 _ _ rfl,
   panelData_fallback_amended.2.2.2 _ _ _ rfl (by decide)⟩

/-- C3 counterexample: a single criterion whose weight is `0.999` puts the
weight sum at distance exactly `0.001` from `1.0`; the claim counts that
as within tolerance, but `validateCriteriaWeights` uses a strict `<` and
rejects it. -/
theorem validateCriteriaWeights_boundary_cex :
    validateCriteriaWeights
      [{ name := "accuracy", description := "d", weight := 999/1000,
         score_type := ScoreType.continuous }] = false
  ∧ ratAbs ((999 : ℚ)/1000 - 1) ≤ 1/1000 := by
  constructor
  · simp only [validateCriteriaWeights, List.foldl_cons, List.foldl_nil,
      decide_eq_false_iff_not, not_lt]
    norm_num [ratAbs]
  · norm_num [ratAbs]

/-- C3 amended: `validateCriteriaWeights` returns true iff the sum of all
criteria weights differs from `1.0` by strictly less than `0.001`; a
distance of exactly `0.001` is rejected. -/
theorem validateCriteriaWeights_iff_strict (criteria : List EvaluationCriterion) :
    validateCriteriaWeights criteria = true ↔
    |(criteria.map EvaluationCriterion.weight).sum - 1| < 1/1000 := by
  rw [validateCriteriaWeights, decide_eq_true_iff, ratAbs_eq_abs,
    weight_foldl_eq_sum]

/-- C3 amended witness: the characterization instantiated at the witness
criteria set, whose weights sum to exactly `1`. -/
theorem validateCriteriaWeights_iff_strict_witness :
    validateCriteriaWeights witnessCriteria = true ↔
    |(witnessCriteria.map EvaluationCriterion.weight).sum - 1| < 1/1000 :=
  validateCriteriaWeights_iff_strict witnessCriteria

/-- C4: a submission whose criteria weights fail the tolerance check is
rejected by `handleEvaluate` before any request is issued — the handler
returns without calling `onEvaluate`, so the number of capability calls
performed is `0` and no partial response exists. -/
theorem handleEvaluate_rejects_invalid_weights
    (prompts : List String) (criteria : List EvaluationCriterion)
    (testInput expectedOutput : String) (generationCount evaluationCount : ℕ)
    (h : validateCriteriaWeights criteria = false) :
    handleEvaluate prompts criteria testInput expectedOutput
        generationCount evaluationCount = none
  ∧ capabilityCallCount
      (handleEvaluate prompts criteria testInput expectedOutput
        generationCount evaluationCount) = 0 := by
  have hvalid : isFormValid prompts criteria testInput = false := by
    rw [isFormValid, h, Bool.and_false]
  rw [handleEvaluate, hvalid]
  exact ⟨rfl, rfl⟩

/-- C4 witness: two prompts and two criteria with weights summing to
`0.9` — the weight check fails, the handler issues nothing and the
capability-call count stays at `0`. -/
theorem handleEvaluate_rejects_invalid_weights_witness :
    validateCriteriaWeights
      [{ name := "accuracy", description := "a", weight := 1/2,
         score_type := ScoreType.continuous },
       { name := "relevance", description := "r", weight := 2/5,
         score_type := ScoreType.continuous }] = false
  ∧ handleEvaluate ["Summarize this", "Explain this"]
      [{ name := "accuracy", description := "a", weight := 1/2,
         score_type := ScoreType.continuous },
       { name := "relevance", description := "r", weight := 2/5,
         score_type := ScoreType.continuous }]
      "What is 2+2?" "" 3 3 = none
  ∧ capabilityCallCount
      (handleEvaluate ["Summarize this", "Explain this"]
        [{ name := "accuracy", description := "a", weight := 1/2,
           score_type := ScoreType.continuous },
         { name := "relevance", description := "r", weight := 2/5,
           score_type := ScoreType.continuous }]
        "What is 2+2?" "" 3 3) = 0 := by
  have h : validateCriteriaWeights
      [{ name := "accuracy", description := "a", weight := 1/2,
         score_type := ScoreType.continuous },
       { name := "relevance", description := "r", weight := 2/5,
         score_type := ScoreType.continuous }] = false := by
    simp only [validateCriteriaWeights, List.foldl_cons, List.foldl_nil,
      decide_eq_false_iff_not, not_lt]
    norm_num [ratAbs]
  exact ⟨h,
    (handleEvaluate_rejects_invalid_weights _ _ _ _ _ _ h).1,
    (handleEvaluate_rejects_invalid_weights _ _ _ _ _ _ h).2⟩

/-- C10: for the empty criteria list the weight sum is `0`, outside the
tolerance around `1.0`, so `validateCriteriaWeights` returns false — and
consequently `isFormValid` returns false for every prompts list and every
test input: an empty criteria set can never produce a valid request. -/
theorem isFormValid_empty_criteria (prompts : List String) (testInput : String) :
    validateCriteriaWeights [] = false
  ∧ isFormValid prompts [] testInput = false := by
  have h : validateCriteriaWeights [] = false := by
    simp only [validateCriteriaWeights, List.foldl_nil,
      decide_eq_false_iff_not, not_lt]
    norm_num [ratAbs]
  exact ⟨h, by rw [isFormValid, h, Bool.and_false]⟩

theorem witnessSchedule_valid : witnessSchedule.Valid 2 2 2 := by
  refine ⟨by decide, ?_, ?_⟩
  · intro pi
    show ([1, 0] : List ℕ).Perm (List.range 2)
    decide
  · intro pi gi
    show ([0, 1] : List ℕ).Perm (List.range 2)
    decide

theorem witnessScheduleLaunch_valid : witnessScheduleLaunch.Valid 2 2 2 := by
  refine ⟨by decide, ?_, ?_⟩
  · intro pi
    show ([0, 1] : List ℕ).Perm (List.range 2)
    decide
  · intro pi gi
    show ([1, 0] : List ℕ).Perm (List.range 2)
    decide

theorem runPrompt_std_devs_isSome (stubs : CapabilityStubs)
    (testInput : String) (criteria : List EvaluationCriterion)
    (genCount evalCount : ℕ) (judgeOrder : ℕ → List ℕ)
    (pid promptText : String) :
    (runPrompt stubs testInput criteria genCount evalCount
        (List.range genCount) judgeOrder pid promptText).score_std_devs.isSome
      = decide (1 < genCount) := by
  simp only [runPrompt, aggregatePromptResults]
  rw [runTasks_length]
  by_cases h1 : 1 < genCount
  · rw [if_pos h1, Option.isSome_some, decide_eq_true_iff.mpr h1]
  · rw [if_neg h1, Option.isSome_none]
    exact (decide_eq_false h1).symm

/-- C5: in every response the orchestrator produces, `score_std_devs` is
present on a `PromptResult` exactly when `generation_count > 1`; for
`generation_count == 1` it is absent (`none`).  All other `PromptResult`
fields are total (non-`Option`) in the data model, hence present
regardless. -/
theorem score_std_devs_presence (stubs : CapabilityStubs)
    (prompts : List String) (testInput : String)
    (criteria : List EvaluationCriterion) (genCount evalCount : ℕ)
    (sched : Schedule)
    (h : sched.Valid prompts.length genCount evalCount) :
    ((evaluate stubs prompts testInput criteria genCount evalCount
        sched).results.all
      (fun r => r.score_std_devs.isSome == decide (1 < r.generation_count)))
      = true := by
  rw [evaluate_of_valid _ _ _ _ _ _ _ h]
  simp only [evaluate, canonicalSchedule]
  rw [runTasks_of_perm _ _ _ _ (List.Perm.refl (List.range prompts.length))]
  rw [List.all_eq_true]
  intro r hr
  obtain ⟨pi, _, rfl⟩ := List.mem_map.mp hr
  rw [runPrompt_std_devs_isSome]
  rw [show (runPrompt stubs testInput criteria genCount evalCount
      (List.range genCount) (fun _ => List.range evalCount)
      (String.append "prompt-" (toString (pi + 1)))
      (prompts.getD pi "")).generation_count = genCount from rfl]
  exact beq_self_eq_true _

/-- C5 witness: a two-prompt evaluation with two generations per prompt
under a scrambled completion schedule. -/
theorem score_std_devs_presence_witness :
    ((evaluate witnessStubs ["Write a poem", "Write a haiku"] "topic"
        witnessCriteria 2 2 witnessSchedule).results.all
      (fun r => r.score_std_devs.isSome == decide (1 < r.generation_count)))
      = true :=
  score_std_devs_presence witnessStubs ["Write a poem", "Write a haiku"]
    "topic" witnessCriteria 2 2 witnessSchedule witnessSchedule_valid

/-- C7: the response's `PromptResult` sequence is in original input prompt
order — one result per input prompt, in the order the prompts were given,
for every valid completion schedule, i.e. independently of which prompt's
evaluation finishes first and never sorted by score. -/
theorem evaluate_preserves_prompt_order (stubs : CapabilityStubs)
    (prompts : List String) (testInput : String)
    (criteria : List EvaluationCriterion) (genCount evalCount : ℕ)
    (sched : Schedule)
    (h : sched.Valid prompts.length genCount evalCount) :
    (evaluate stubs prompts testInput criteria genCount evalCount
        sched).results.map PromptResult.prompt = prompts := by
  rw [evaluate_of_valid _ _ _ _ _ _ _ h]
  simp only [evaluate, canonicalSchedule]
  rw [runTasks_of_perm _ _ _ _ (List.Perm.refl (List.range prompts.length))]
  rw [List.map_map]
  rw [show (PromptResult.prompt ∘ fun pi =>
        runPrompt stubs testInput criteria genCount evalCount
          (List.range genCount) (fun _ => List.range evalCount)
          (String.append "prompt-" (toString (pi + 1))) (prompts.getD pi ""))
      = fun pi => prompts.getD pi "" from rfl]
  exact map_getD_range prompts ""

/-- C7 witness: two prompts evaluated under the scrambled schedule in
which the second prompt finishes first still come back in input order. -/
theorem evaluate_preserves_prompt_order_witness :
    (evaluate witnessStubs ["Write a poem", "Write a haiku"] "topic"
        witnessCriteria 2 2 witnessSchedule).results.map
      PromptResult.prompt = ["Write a poem", "Write a haiku"] :=
  evaluate_preserves_prompt_order witnessStubs ["Write a poem", "Write a haiku"]
    "topic" witnessCriteria 2 2 witnessSchedule witnessSchedule_valid

/-- C8: with a fixed set of deterministic stub generate/judge capabilities
and identical inputs, two invocations of `evaluate` produce identical
`final_scores` and identical `total_score`, independently of the orders in
which the concurrent generation and judge calls complete. -/
theorem evaluate_deterministic (stubs : CapabilityStubs)
    (prompts : List String) (testInput : String)
    (criteria : List EvaluationCriterion) (genCount evalCount : ℕ)
    (s₁ s₂ : Schedule)
    (h₁ : s₁.Valid prompts.length genCount evalCount)
    (h₂ : s₂.Valid prompts.length genCount evalCount) :
    ((evaluate stubs prompts testInput criteria genCount evalCount
        s₁).results.map PromptResult.final_scores
      = (evaluate stubs prompts testInput criteria genCount evalCount
          s₂).results.map PromptResult.final_scores)
  ∧ ((evaluate stubs prompts testInput criteria genCount evalCount
        s₁).results.map PromptResult.total_score
      = (evaluate stubs prompts testInput criteria genCount evalCount
          s₂).results.map PromptResult.total_score) := by
  rw [evaluate_of_valid _ _ _ _ _ _ _ h₁, evaluate_of_valid _ _ _ _ _ _ _ h₂]
  exact ⟨rfl, rfl⟩

/-- C8 witness: the scrambled and the launch-order completion schedules
give identical `final_scores` and `total_score` on a concrete two-prompt
evaluation. -/
theorem evaluate_deterministic_witness :
    ((evaluate witnessStubs ["Write a poem", "Write a haiku"] "topic"
        witnessCriteria 2 2 witnessSchedule).results.map
        PromptResult.final_scores
      = (evaluate witnessStubs ["Write a poem", "Write a haiku"] "topic"
          witnessCriteria 2 2 witnessScheduleLaunch).results.map
          PromptResult.final_scores)
  ∧ ((evaluate witnessStubs ["Write a poem", "Write a haiku"] "topic"
        witnessCriteria 2 2 witnessSchedule).results.map
        PromptResult.total_score
      = (evaluate witnessStubs ["Write a poem", "Write a haiku"] "topic"
          witnessCriteria 2 2 witnessScheduleLaunch).results.map
          PromptResult.total_score) :=
  evaluate_deterministic witnessStubs ["Write a poem", "Write a haiku"]
    "topic" witnessCriteria 2 2 witnessSchedule witnessScheduleLaunch
    witnessSchedule_valid witnessScheduleLaunch_valid

/-- C6 counterexample: a single criterion of weight `2001/2000 = 1.0005`
has a weight sum within the `±0.001` tolerance of `1.0`, and its final
score `1` is clamped into `[0,1]`, yet the weighted total is
`2001/2000 > 1` — so `total_score ∈ [0,1]` fails as claimed. -/
theorem totalScore_unit_interval_cex :
    ratAbs (([overweightCriterion].map EvaluationCriterion.weight).sum - 1)
      ≤ 1/1000
  ∧ (lookupStr [("accuracy", (1 : ℚ))] "accuracy").getD 0 = 1
  ∧ (0 : ℚ) ≤ 1 ∧ (1 : ℚ) ≤ 1
  ∧ 1 < totalScore [("accuracy", (1 : ℚ))] [overweightCriterion] := by
  refine ⟨?_, rfl, by norm_num, by norm_num, ?_⟩
  · simp only [List.map_cons, List.map_nil, List.sum_cons, List.sum_nil,
      overweightCriterion]
    norm_num [ratAbs]
  · rw [show totalScore [("accuracy", (1 : ℚ))] [overweightCriterion]
      = 1 * (2001/2000) + 0 from rfl]
    norm_num

/-- C6 amended: when every weight is nonnegative, the weight sum is within
the `±0.001` tolerance of `1.0`, and every per-criterion final score is
clamped into `[0,1]`, the weighted total lies in `[0, 1.001]` (the upper
end `1` of the claimed interval is only guaranteed up to the same `0.001`
tolerance the weight sum enjoys). -/
theorem totalScore_bounds_amended (finalScores : List (String × ℚ))
    (criteria : List EvaluationCriterion)
    (hw : ∀ c ∈ criteria, 0 ≤ c.weight)
    (hsum : ratAbs ((criteria.map EvaluationCriterion.weight).sum - 1) ≤ 1/1000)
    (hs : ∀ c ∈ criteria, (lookupStr finalScores c.name).getD 0 ≤ 1
        ∧ 0 ≤ (lookupStr finalScores c.name).getD 0) :
    0 ≤ totalScore finalScores criteria
  ∧ totalScore finalScores criteria ≤ 1 + 1/1000 := by
  constructor
  · apply List.sum_nonneg
    intro x hx
    obtain ⟨c, hc, rfl⟩ := List.mem_map.mp hx
    exact mul_nonneg (hs c hc).2 (hw c hc)
  · have hstep : totalScore finalScores criteria
        ≤ (criteria.map EvaluationCriterion.weight).sum := by
      apply List.sum_le_sum
      intro c hc
      calc (lookupStr finalScores c.name).getD 0 * c.weight
          ≤ 1 * c.weight := mul_le_mul_of_nonneg_right (hs c hc).1 (hw c hc)
        _ = c.weight := one_mul c.weight
    have hupper : (criteria.map EvaluationCriterion.weight).sum ≤ 1 + 1/1000 := by
      rw [ratAbs_eq_abs] at hsum
      have := (abs_le.mp hsum).2
      linarith
    exact le_trans hstep hupper

/-- C6 amended witness: the bound evaluated on the two-criterion witness
set (weights `0.7`/`0.3`) with clamped final scores `0.9` and `0.5`. -/
theorem totalScore_bounds_amended_witness :
    0 ≤ totalScore [("accuracy", (9/10 : ℚ)), ("clarity", (1/2 : ℚ))]
        witnessCriteria
  ∧ totalScore [("accuracy", (9/10 : ℚ)), ("clarity", (1/2 : ℚ))]
        witnessCriteria ≤ 1 + 1/1000 :=
  totalScore_bounds_amended [("accuracy", 9/10), ("clarity", 1/2)]
    witnessCriteria
    (by
      intro c hc
      simp only [witnessCriteria, List.mem_cons, List.not_mem_nil, or_false] at hc
      rcases hc with rfl | rfl <;> norm_num)
    (by
      simp only [witnessCriteria, List.map_cons, List.map_nil, List.sum_cons,
        List.sum_nil]
      norm_num [ratAbs])
    (by
      intro c hc
      simp only [witnessCriteria, List.mem_cons, List.not_mem_nil, or_false] at hc
      rcases hc with rfl | rfl
      · exact ⟨show (9/10 : ℚ) ≤ 1 by norm_num, show (0 : ℚ) ≤ 9/10 by norm_num⟩
      · exact ⟨show (1/2 : ℚ) ≤ 1 by norm_num, show (0 : ℚ) ≤ 1/2 by norm_num⟩)

/-- C10 witness: with the empty criteria list a concrete, otherwise valid
form is still rejected. -/
theorem isFormValid_empty_criteria_witness :
    validateCriteriaWeights [] = false
  ∧ isFormValid ["Prompt 1"] [] "What is 2+2?" = false :=
  isFormValid_empty_criteria ["Prompt 1"] "What is 2+2?"

end LLMTournament
